import Mathlib

/-!
Verification development for the vault-backed storage layer and the http-01
challenge responder of the lego fork under study.

The Go sources are shallowly embedded:

* the Vault key/value backing store (`Logical().Read` / `Logical().Write`)
  becomes a `Vault` state carrying the stored data maps together with
  injected read/write/client failures, matching the spec's description of
  the backing secret store as a path-addressable key/value interface;
* Go interface values stored in the data maps become `GoVal`; a failed type
  assertion or a nil-pointer dereference is an explicit `Res.panic`;
* `log.Fatalf` becomes `Res.fatal`, a returned Go `error` becomes `Res.err`;
* serialization helpers that live outside the embedded files
  (`json.Marshal`/`Unmarshal` on the repository's record types,
  `pem.Encode`/`Decode`, the x509 key parsers, `certcrypto`) are modelled
  from the spec as invertible symbolic encodings over the `Bytes` algebra.
-/

namespace Lego

/-- DER-encoded key material inside a PEM block.  Modelled from the spec:
only RSA and elliptic-curve encodings are distinguished, other content is
opaque. -/
inductive KeyDer where
  | rsa (material : Nat)
  | ec (material : Nat)
  | other (tag : String)
deriving DecidableEq

/-- A parsed private key (`crypto.PrivateKey` restricted to the two kinds
the repository supports). -/
inductive PrivKey where
  | rsaKey (material : Nat)
  | ecKey (material : Nat)
deriving DecidableEq

/-- A `pem.Block`: a type label and the enclosed DER bytes. -/
structure PemBlock where
  type : String
  bytes : KeyDer
deriving DecidableEq

/-- The body of an ACME registration resource; only its status is inspected
by the embedded code. -/
structure RegBody where
  status : String
deriving DecidableEq

/-- A `registration.Resource` (authority-assigned registration record). -/
structure Reg where
  body : RegBody
  uri : String
deriving DecidableEq

/-- A `certificate.Resource`: domain, ACME bookkeeping URLs, and the three
PEM-encoded blobs.  PEM text is carried as `String`, matching Go byte
slices content-wise. -/
structure Resource where
  domain : String
  certUrl : String
  certStableUrl : String
  privateKey : String
  certificate : String
  issuerCertificate : String
deriving DecidableEq

/-- The serialized projection of an `Account`: what `json.Marshal` keeps.
Modelled from the spec: the account record is serialized excluding the
private key, which lives at its own path. -/
structure AccountRecord where
  email : String
  registration : Option Reg
deriving DecidableEq

/-- An `Account`: user identifier, registration record, and the private key
attached at load time (unexported in Go, hence never serialized). -/
structure Account where
  email : String
  registration : Option Reg
  key : Option PrivKey
deriving DecidableEq

/-- Symbolic byte strings.  Modelled from the spec: serialization of the
record types is a structured, invertible encoding, so each encoder is a
constructor and each decoder a pattern match. -/
inductive Bytes where
  | raw (s : String)
  | resourceJson (r : Resource)
  | accountJson (rec : AccountRecord)
  | pemBytes (blocks : List PemBlock)
deriving DecidableEq

/-- A Go interface value as stored in a Vault data map: a string, a byte
slice, or a nested string-keyed map. -/
inductive GoVal where
  | vStr (b : Bytes)
  | vBytes (b : Bytes)
  | vMap (entries : List (String × GoVal))

/-- Data map attached to a Vault secret (`resp.Data` / the write payload). -/
abbrev VData := List (String × GoVal)

/-- Go map indexing: `m[k]` yields the value, or nothing (Go: a nil
interface) when the key is absent. -/
def mapGet (m : VData) (k : String) : Option GoVal :=
  (m.find? (fun e => e.fst == k)).map (fun e => e.snd)

/-- Outcome of an embedded operation: a value, a returned Go error, a
`log.Fatalf` abort, or a runtime panic (nil dereference / failed type
assertion). -/
inductive Res (α : Type) where
  | ok (a : α)
  | err (msg : String)
  | fatal (msg : String)
  | panic (msg : String)
deriving DecidableEq

/-- Message of a Go nil-pointer dereference panic. -/
def nilDerefMsg : String := "runtime error: invalid memory address or nil pointer dereference"

/-- Message of a Go failed-type-assertion panic. -/
def typeAssertMsg : String := "interface conversion"

/-- The backing secret store together with its failure behaviour: current
contents per path, plus injected read, write and client-construction
failures. -/
structure Vault where
  store : String → Option VData
  readErr : String → Option String
  writeErr : String → Option String
  clientErr : Option String

/-- Result of `Logical().Read`: an error, or an optional response (a
missing path yields no response and no error). -/
inductive ReadResult where
  | rerr (e : String)
  | rok (d : Option VData)

/-- One `Logical().Read` round trip. -/
def vaultRead (v : Vault) (p : String) : ReadResult :=
  match v.readErr p with
  | some e => .rerr e
  | none => .rok (v.store p)

/-- One `Logical().Write` round trip: either the injected error, or the
store updated at the path (a full overwrite). -/
def vaultWrite (v : Vault) (p : String) (d : VData) : Except String Vault :=
  match v.writeErr p with
  | some e => .error e
  | none => .ok { v with store := fun q => if q = p then some d else v.store q }

/-- A healthy, empty backing store. -/
def emptyVault : Vault :=
  { store := fun _ => none, readErr := fun _ => none,
    writeErr := fun _ => none, clientErr := none }

/-! ## Certificate store (CertificatesStorage) -/

/-- Path of the raw-material entry for a domain. -/
def certsPath (domain : String) : String := "secret/data/fabio/certs/" ++ domain

/-- Path of the structured-metadata entry for a domain. -/
def jsonPath (domain : String) : String := "secret/data/fabio/json/" ++ domain

/-- Modelled from the spec: `json.MarshalIndent` on a `certificate.Resource`
is a faithful structured encoding of the record. -/
def marshalResource (r : Resource) : Bytes := .resourceJson r

/-- Modelled from the spec: `json.Unmarshal` into a `certificate.Resource`
inverts the encoding and rejects anything else. -/
def unmarshalResource (b : Bytes) : Except String Resource :=
  match b with
  | .resourceJson r => .ok r
  | _ => .error "json: cannot unmarshal"

/-- CertificatesStorage.SaveResource: write the raw material under the
certs path, then the marshalled resource under the json path; every
failure is fatal with a message attributing the failing entry. -/
def SaveResource (s : Vault) (certRes : Resource) : Res Vault :=
  match s.clientErr with
  | some e => .fatal ("vault: client: " ++ e)
  | none =>
    match vaultWrite s (certsPath certRes.domain)
        [("cert", .vBytes (.raw certRes.certificate)),
         ("key", .vBytes (.raw certRes.privateKey)),
         ("issuer", .vBytes (.raw certRes.issuerCertificate))] with
    | .error _ => .fatal ("Unable to save Certificate for domain " ++ certRes.domain)
    | .ok v1 =>
      match vaultWrite v1 (jsonPath certRes.domain)
          [("data", .vBytes (marshalResource certRes))] with
      | .error _ => .fatal ("Unable to save CertResource for domain " ++ certRes.domain)
      | .ok v2 => .ok v2

/-- CertificatesStorage.ReadResource: read the json path; a read error is
fatal, an absent response is dereferenced (`resp.Data`) and panics, and a
present response is asserted to hold bytes and unmarshalled. -/
def ReadResource (s : Vault) (domain : String) : Res Resource :=
  match s.clientErr with
  | some e => .fatal ("vault: client: " ++ e)
  | none =>
    match vaultRead s (jsonPath domain) with
    | .rerr _ => .fatal ("Error while loading the meta data for domain " ++ domain)
    | .rok none => .panic nilDerefMsg
    | .rok (some data) =>
      match mapGet data "data" with
      | some (.vBytes b) =>
        match unmarshalResource b with
        | .ok r => .ok r
        | .error _ => .fatal ("Error while marshaling the meta data for domain " ++ domain)
      | _ => .panic typeAssertMsg

/-- CertificatesStorage.ExistsFile: probe the json path; any read error or
absent response is a plain `false`. -/
def ExistsFile (s : Vault) (domain : String) (_extension : String) : Res Bool :=
  match s.clientErr with
  | some e => .fatal ("vault: client: " ++ e)
  | none =>
    match vaultRead s (jsonPath domain) with
    | .rerr _ => .ok false
    | .rok none => .ok false
    | .rok (some _) => .ok true

/-! ## Account store (AccountsStorage) -/

/-- Path of the account record for a user identifier. -/
def accountPath (userID : String) : String := "secret/data/fabio/account/" ++ userID

/-- Path of the private key for a user identifier. -/
def privateKeyPath (userID : String) : String := "secret/data/fabio/private_key/" ++ userID

/-- Modelled from the spec: `json.MarshalIndent` on an `Account` keeps the
exported fields (email, registration) and excludes the unexported private
key. -/
def marshalAccount (a : Account) : AccountRecord :=
  { email := a.email, registration := a.registration }

/-- Modelled from the spec: `json.Unmarshal` into an `Account` record
inverts the encoding and rejects anything else. -/
def unmarshalAccount (b : Bytes) : Except String AccountRecord :=
  match b with
  | .accountJson rec => .ok rec
  | _ => .error "json: cannot unmarshal"

/-- AccountsStorage.Save: serialize the account and write it under the path
keyed by the account's own email; a write error is returned, not fatal. -/
def Save (s : Vault) (account : Account) : Res Vault :=
  match s.clientErr with
  | some e => .fatal ("vault: client: " ++ e)
  | none =>
    match vaultWrite s (accountPath account.email)
        [("data", .vMap [("data", .vStr (.accountJson (marshalAccount account)))])] with
    | .error e => .err e
    | .ok v1 => .ok v1

/-- AccountsStorage.ExistsAccountFilePath: probe the account path keyed by
the storage's user identifier; read errors and absent responses are
`false`. -/
def ExistsAccountFilePath (s : Vault) (userID : String) : Res Bool :=
  match s.clientErr with
  | some e => .fatal ("vault: client: " ++ e)
  | none =>
    match vaultRead s (accountPath userID) with
    | .rerr _ => .ok false
    | .rok none => .ok false
    | .rok (some _) => .ok true

/-- Registration check guarding the self-healing branch of LoadAccount:
`account.Registration == nil || account.Registration.Body.Status == ""`. -/
def regMissingOrEmpty : Option Reg → Bool
  | none => true
  | some r => r.body.status == ""

/-- Events a LoadAccount run emits: one per call to registration recovery
and one per call to Save (recording the account handed to Save). -/
inductive AEvent where
  | recoverCall
  | saveCall (a : Account)
deriving DecidableEq

/-- AccountsStorage.LoadAccount: read the account record keyed by the
storage's user identifier, decode it, attach the supplied private key, and
when the registration is missing or has empty status run recovery and
re-save, fatally aborting when either step fails.  `recoverResult` is the
outcome of `tryRecoverRegistration` (modelled from the spec as an oracle:
a key-based account lookup against the authority, outside this
subsystem).  The returned event list records recovery and save calls. -/
def LoadAccount (s : Vault) (userID : String) (privateKey : PrivKey)
    (recoverResult : Except String Reg) : Res (Account × Vault) × List AEvent :=
  match s.clientErr with
  | some e => (.fatal ("vault: client: " ++ e), [])
  | none =>
    match vaultRead s (accountPath userID) with
    | .rerr _ => (.fatal ("Error while loading account " ++ userID), [])
    | .rok none => (.panic nilDerefMsg, [])
    | .rok (some data) =>
      match mapGet data "data" with
      | some (.vMap d) =>
        match mapGet d "data" with
        | some (.vStr b) =>
          match unmarshalAccount b with
          | .error _ => (.fatal ("Could not parse file for account " ++ userID), [])
          | .ok rec =>
            let account : Account :=
              { email := rec.email, registration := rec.registration, key := some privateKey }
            if regMissingOrEmpty account.registration then
              match recoverResult with
              | .error _ => (.fatal ("Could not load account for " ++ userID), [.recoverCall])
              | .ok reg =>
                let account1 : Account := { account with registration := some reg }
                match Save s account1 with
                | .ok v1 => (.ok (account1, v1), [.recoverCall, .saveCall account1])
                | .err _ => (.fatal ("Could not save account for " ++ userID),
                    [.recoverCall, .saveCall account1])
                | .fatal e => (.fatal e, [.recoverCall, .saveCall account1])
                | .panic e => (.panic e, [.recoverCall, .saveCall account1])
            else (.ok (account, s), [])
        | _ => (.panic typeAssertMsg, [])
      | _ => (.panic typeAssertMsg, [])

/-! ## Private keys -/

/-- The key types of `certcrypto.KeyType` the command line offers. -/
inductive KeyType where
  | RSA2048
  | RSA4096
  | EC256
  | EC384
deriving DecidableEq

/-- Modelled from the spec: `certcrypto.GeneratePrivateKey` generates a
fresh key of the requested type; the entropy consumed is abstracted as a
natural number (generation failure, fatal in the source, is not
modelled). -/
def GeneratePrivateKey (keyType : KeyType) (entropy : Nat) : PrivKey :=
  match keyType with
  | .RSA2048 => .rsaKey entropy
  | .RSA4096 => .rsaKey entropy
  | .EC256 => .ecKey entropy
  | .EC384 => .ecKey entropy

/-- Modelled from the spec: `certcrypto.PEMBlock` labels the DER encoding
of a key with the matching PEM type label. -/
def PEMBlock (key : PrivKey) : PemBlock :=
  match key with
  | .rsaKey n => { type := "RSA PRIVATE KEY", bytes := .rsa n }
  | .ecKey n => { type := "EC PRIVATE KEY", bytes := .ec n }

/-- Modelled from the spec: `pem.EncodeToMemory` renders one block. -/
def pemEncodeToMemory (b : PemBlock) : Bytes := .pemBytes [b]

/-- Modelled from the spec: `pem.Decode` yields the first PEM block of the
input, or no block at all when none can be decoded. -/
def pemDecode (b : Bytes) : Option PemBlock :=
  match b with
  | .pemBytes blocks => blocks.head?
  | _ => none

/-- Modelled from the spec: `x509.ParsePKCS1PrivateKey` accepts exactly RSA
DER material. -/
def parsePKCS1PrivateKey (d : KeyDer) : Except String PrivKey :=
  match d with
  | .rsa n => .ok (.rsaKey n)
  | _ => .error "x509: failed to parse private key"

/-- Modelled from the spec: `x509.ParseECPrivateKey` accepts exactly EC DER
material. -/
def parseECPrivateKey (d : KeyDer) : Except String PrivKey :=
  match d with
  | .ec n => .ok (.ecKey n)
  | _ => .error "x509: failed to parse EC private key"

/-- loadPrivateKey: decode a PEM block (dereferencing the absent block's
type field panics), dispatch on the type label, and report an unknown key
type for any other label. -/
def loadPrivateKey (keyBytes : Bytes) : Res PrivKey :=
  match pemDecode keyBytes with
  | none => .panic nilDerefMsg
  | some keyBlock =>
    if keyBlock.type = "RSA PRIVATE KEY" then
      match parsePKCS1PrivateKey keyBlock.bytes with
      | .ok k => .ok k
      | .error e => .err e
    else if keyBlock.type = "EC PRIVATE KEY" then
      match parseECPrivateKey keyBlock.bytes with
      | .ok k => .ok k
      | .error e => .err e
    else .err "unknown private key type"

/-- AccountsStorage.GetPrivateKey: read the key path; on a missing entry
generate a key, persist its PEM encoding (a failed write is fatal) and
return it; on a present entry decode the stored PEM. -/
def GetPrivateKey (s : Vault) (userID : String) (keyType : KeyType) (entropy : Nat) :
    Res (PrivKey × Vault) :=
  match s.clientErr with
  | some e => .fatal ("vault: client: " ++ e)
  | none =>
    match vaultRead s (privateKeyPath userID) with
    | .rerr _ => .fatal ("No key found for account " ++ userID)
    | .rok none =>
      let privateKey := GeneratePrivateKey keyType entropy
      let pemKey := PEMBlock privateKey
      match vaultWrite s (privateKeyPath userID)
          [("data", .vMap [("data", .vStr (pemEncodeToMemory pemKey))])] with
      | .error _ => .fatal ("Could not write private account key for account " ++ userID)
      | .ok v1 => .ok (privateKey, v1)
    | .rok (some data) =>
      match mapGet data "data" with
      | some (.vMap d) =>
        match mapGet d "data" with
        | some (.vStr b) =>
          match loadPrivateKey b with
          | .ok k => .ok (k, s)
          | .err _ => .fatal ("Could not load RSA private key from file " ++ userID)
          | .fatal e => .fatal e
          | .panic e => .panic e
        | _ => .panic typeAssertMsg
      | _ => .panic typeAssertMsg

/-! ## Challenge responder (http01.ProviderServer) -/

/-- Modelled from the spec: the token path follows the well-known ACME
http-01 challenge path convention. -/
def ChallengePath (token : String) : String :=
  "/.well-known/acme-challenge/" ++ token

/-- An incoming HTTP request as the handlers observe it: Host header,
method, and URL path. -/
structure Request where
  host : String
  method : String
  url : String
deriving DecidableEq

/-- An outgoing HTTP response: status code, optional Content-Type header,
body. -/
structure Response where
  status : Nat
  contentType : Option String
  body : String
deriving DecidableEq

/-- The handlers the responder registers, as data: the root liveness
handler installed at construction, and a challenge handler for one
session. -/
inductive HandlerSpec where
  | rootHandler
  | challenge (domain : String) (keyAuth : String)
deriving DecidableEq

/-- strings.HasPrefix, stated on the character sequences. -/
def strStartsWith (s pre : String) : Bool := pre.data.isPrefixOf s.data

/-- Behaviour of a registered handler on a request.  `w.Write` with no
prior WriteHeader sends status 200; the challenge handler serves the
authorization key to GET requests whose Host starts with the domain, and
the fixed diagnostic body to every other request. -/
def runHandler : HandlerSpec → Request → Response
  | .rootHandler, _ => { status := 200, contentType := some "text/plain", body := "OK" }
  | .challenge domain keyAuth, r =>
    if strStartsWith r.host domain && (r.method == "GET") then
      { status := 200, contentType := some "text/plain", body := keyAuth }
    else
      { status := 200, contentType := none, body := "TEST" }

/-- Dispatch of `http.ServeMux` restricted to the patterns this server
registers: an exact pattern match wins, otherwise the root pattern
catches everything, otherwise 404. -/
def muxServe (routes : List (String × HandlerSpec)) (r : Request) : Response :=
  match routes.lookup r.url with
  | some h => runHandler h r
  | none =>
    match routes.lookup "/" with
    | some h => runHandler h r
    | none => { status := 404, contentType := none, body := "404 page not found" }

/-- The responder's state: configured interface and port, the address the
TCP listener was bound to (none when no listener exists), whether the
completion channel was created, and the routing table. -/
structure ProviderServer where
  iface : String
  port : String
  boundAddr : Option String
  doneCreated : Bool
  routes : List (String × HandlerSpec)
deriving DecidableEq

/-- net.JoinHostPort: a host containing a colon is bracketed. -/
def JoinHostPort (host port : String) : String :=
  if host.data.contains ':' then "[" ++ host ++ "]:" ++ port else host ++ ":" ++ port

/-- ProviderServer.GetAddress. -/
def GetAddress (s : ProviderServer) : String := JoinHostPort s.iface s.port

/-- NewProviderServer: record iface and port, bind the listener at the
address computed from them as given (bind failure, fatal in the source,
is not modelled), create the completion channel, and register the root
liveness handler. -/
def NewProviderServer (iface port : String) : ProviderServer :=
  let s0 : ProviderServer :=
    { iface := iface, port := port, boundAddr := none, doneCreated := false, routes := [] }
  { s0 with
    boundAddr := some (GetAddress s0)
    doneCreated := true
    routes := [("/", .rootHandler)] }

/-- ProviderServer.serve: register the challenge handler under the token's
derived path. -/
def serve (s : ProviderServer) (domain token keyAuth : String) : ProviderServer :=
  { s with routes := s.routes ++ [(ChallengePath token, .challenge domain keyAuth)] }

/-- ProviderServer.Present: default the port field when empty, then
register the challenge route (spawned on its own goroutine in the source;
the registered state is modelled). -/
def Present (s : ProviderServer) (domain token keyAuth : String) : ProviderServer :=
  let s1 := if s.port == "" then { s with port := "80" } else s
  serve s1 domain token keyAuth

/-- Synchronous shape of ProviderServer.CleanUp. -/
inductive CleanUpBehavior where
  | trivialNil
  | closeAndWait
deriving DecidableEq

/-- CleanUp: with no listener return nil immediately; otherwise close the
listener, block on the completion channel, then return nil. -/
def CleanUp (s : ProviderServer) : CleanUpBehavior :=
  match s.boundAddr with
  | none => .trivialNil
  | some _ => .closeAndWait

/-! ### Trace model of the teardown handshake

The concurrent part of CleanUp is modelled by traces of observable
events.  A trace is valid when it respects the program order of the serve
goroutine (the completion channel is signalled only after the serve loop
returns), the synchronization of the unbuffered channel (a receive
completes only after the send), the program order of CleanUp (close the
listener, then receive, then return), and the listener semantics (a new
request is accepted only while the listener is open). -/

/-- Observable events of one established-listener responder run. -/
inductive CEvent where
  | listenerClose
  | serveExit
  | doneSend
  | doneRecv
  | cleanUpReturn
  | requestAccepted
deriving DecidableEq

/-- Every occurrence of `b` has an occurrence of `a` strictly before it. -/
def requiresBefore (t : List CEvent) (b a : CEvent) : Prop :=
  ∀ j : Fin t.length, t.get j = b → ∃ i : Fin t.length, t.get i = a ∧ (i : Nat) < (j : Nat)

/-- Every occurrence of `a` is strictly before every occurrence of `b`. -/
def allBefore (t : List CEvent) (a b : CEvent) : Prop :=
  ∀ i j : Fin t.length, t.get i = a → t.get j = b → (i : Nat) < (j : Nat)

/-- Validity of a trace of a responder whose listener was established and
on which CleanUp was invoked: the four orderings justified above. -/
def ValidCleanupTrace (t : List CEvent) : Prop :=
  requiresBefore t .doneSend .serveExit ∧
  requiresBefore t .doneRecv .doneSend ∧
  requiresBefore t .doneRecv .listenerClose ∧
  requiresBefore t .cleanUpReturn .doneRecv ∧
  allBefore t .requestAccepted .listenerClose

/-! ## Theorems -/

/-- C8: for every PEM input whose decoded key block carries a type label
other than the RSA or EC private-key labels, loadPrivateKey returns the
unknown-key-type error (a nil key with a non-nil error), never a nil key
with no error. -/
theorem c8_unknown_key_type (keyBytes : Bytes) (block : PemBlock)
    (hdec : pemDecode keyBytes = some block)
    (h1 : block.type ≠ "RSA PRIVATE KEY") (h2 : block.type ≠ "EC PRIVATE KEY") :
    loadPrivateKey keyBytes = .err "unknown private key type" := by
  simp [loadPrivateKey, hdec, h1, h2]

/-- Witness for C8: a DSA-labelled block is rejected with the
unknown-key-type error. -/
theorem c8_unknown_key_type_witness :
    loadPrivateKey (.pemBytes [{ type := "DSA PRIVATE KEY", bytes := .other "d" }]) =
      .err "unknown private key type" :=
  c8_unknown_key_type _ { type := "DSA PRIVATE KEY", bytes := .other "d" } rfl
    (by decide) (by decide)

/-- C9: when no PEM block can be decoded, loadPrivateKey dereferences the
absent block and panics instead of returning the unknown-key-type error;
the error return is reached only for inputs with a decodable block. -/
theorem c9_nil_block_panics :
    (∀ b : Bytes, pemDecode b = none → loadPrivateKey b = .panic nilDerefMsg) ∧
    (∀ (b : Bytes) (e : String), loadPrivateKey b = .err e → pemDecode b ≠ none) := by
  constructor
  · intro b h
    unfold loadPrivateKey
    rw [h]
  · intro b e h hnone
    unfold loadPrivateKey at h
    rw [hnone] at h
    exact Res.noConfusion h

/-- Witness for C9: raw bytes with no PEM block make loadPrivateKey
panic. -/
theorem c9_nil_block_panics_witness :
    loadPrivateKey (Bytes.raw "not pem") = .panic nilDerefMsg :=
  c9_nil_block_panics.1 (Bytes.raw "not pem") rfl

/-- C7 exhibit: constructed with an empty port, the responder binds its
listener at the address with the EMPTY port component (an OS-chosen
ephemeral port, not 80); Present later defaults the port field to 80, but
the already-bound listener address is unchanged and differs from the
port-80 address. -/
theorem c7_listener_not_on_port_80 :
    (NewProviderServer "" "").boundAddr = some (JoinHostPort "" "") ∧
    (Present (NewProviderServer "" "") "example.com" "tok1" "key1").port = "80" ∧
    (Present (NewProviderServer "" "") "example.com" "tok1" "key1").boundAddr =
      some (JoinHostPort "" "") ∧
    JoinHostPort "" "" ≠ JoinHostPort "" "80" := by
  refine ⟨rfl, rfl, rfl, ?_⟩
  decide

/-- The challenge path is never the root pattern. -/
theorem challengePath_ne_root (token : String) : ChallengePath token ≠ "/" := by
  intro h
  have hlen : ("/.well-known/acme-challenge/" : String).length + token.length
      = ("/" : String).length := by
    rw [← String.length_append]
    exact congrArg String.length h
  simp only [show ("/.well-known/acme-challenge/" : String).length = 28 from rfl,
    show ("/" : String).length = 1 from rfl] at hlen
  omega

/-- Routing table after construction followed by a Present call. -/
theorem present_routes (iface port domain token keyAuth : String) :
    (Present (NewProviderServer iface port) domain token keyAuth).routes =
      [("/", .rootHandler), (ChallengePath token, .challenge domain keyAuth)] := by
  unfold Present serve NewProviderServer
  split <;> rfl

/-- The mux resolves the token's derived path to the session's challenge
handler. -/
theorem present_lookup (iface port domain token keyAuth : String) :
    ((Present (NewProviderServer iface port) domain token keyAuth).routes).lookup
        (ChallengePath token) = some (.challenge domain keyAuth) := by
  rw [present_routes]
  have hne : (ChallengePath token == "/") = false :=
    beq_eq_false_iff_ne.mpr (challengePath_ne_root token)
  simp [List.lookup_cons, hne]

/-- C5 amended: for every session registered by Present, a request to the
token's derived path whose Host starts with the domain and whose method is
GET receives status 200 with the authorization key as body; every other
request to that path receives status 200 with the fixed diagnostic body
"TEST", which differs from the authorization key whenever the
authorization key is not itself the literal "TEST". -/
theorem c5_challenge_responses (iface port domain token keyAuth : String) (r : Request)
    (hurl : r.url = ChallengePath token) (hka : keyAuth ≠ "TEST") :
    (strStartsWith r.host domain = true → r.method = "GET" →
      muxServe (Present (NewProviderServer iface port) domain token keyAuth).routes r =
        { status := 200, contentType := some "text/plain", body := keyAuth }) ∧
    (¬(strStartsWith r.host domain = true ∧ r.method = "GET") →
      muxServe (Present (NewProviderServer iface port) domain token keyAuth).routes r =
        { status := 200, contentType := none, body := "TEST" } ∧
      "TEST" ≠ keyAuth) := by
  have hlk := present_lookup iface port domain token keyAuth
  constructor
  · intro hh hm
    simp [muxServe, hurl, hlk, runHandler, hh, hm]
  · intro hnot
    have hcond : (strStartsWith r.host domain && (r.method == "GET")) = false := by
      by_cases hA : strStartsWith r.host domain = true
      · by_cases hB : r.method = "GET"
        · exact absurd ⟨hA, hB⟩ hnot
        · simp [hA, beq_eq_false_iff_ne.mpr hB]
      · simp only [Bool.not_eq_true] at hA
        simp [hA]
    refine ⟨?_, Ne.symm hka⟩
    simp [muxServe, hurl, hlk, runHandler, hcond]

/-- Witness for C5 amended: the scenario of the spec, with key "key1". -/
theorem c5_challenge_responses_witness :
    muxServe (Present (NewProviderServer "127.0.0.1" "5002") "example.com" "tok1" "key1").routes
        { host := "example.com", method := "GET", url := ChallengePath "tok1" } =
      { status := 200, contentType := some "text/plain", body := "key1" } :=
  (c5_challenge_responses "127.0.0.1" "5002" "example.com" "tok1" "key1"
    { host := "example.com", method := "GET", url := ChallengePath "tok1" }
    rfl (by decide)).1 (by decide) rfl

/-- C5 counterexample: with authorization key "TEST", a request to the
token path whose Host does not match still receives a body equal to the
session's authorization key, refuting the claim that the fallback body is
never the authorization key. -/
theorem c5_counterexample :
    muxServe (Present (NewProviderServer "127.0.0.1" "5002") "example.com" "tok1" "TEST").routes
        { host := "other.org", method := "GET", url := ChallengePath "tok1" } =
      { status := 200, contentType := none, body := "TEST" } := by
  decide

/-- C6: cleanUp succeeds trivially when no listener was ever established;
otherwise, in every valid teardown trace, the serve loop has exited
strictly before cleanUp returns (the one-shot completion handshake), and
every accepted request precedes cleanUp's return, so no further request is
served afterwards. -/
theorem c6_cleanup_sync :
    (∀ s : ProviderServer, s.boundAddr = none → CleanUp s = .trivialNil) ∧
    (∀ t : List CEvent, ValidCleanupTrace t →
      ∀ j : Fin t.length, t.get j = .cleanUpReturn →
        (∃ i : Fin t.length, t.get i = .serveExit ∧ (i : Nat) < (j : Nat)) ∧
        (∀ k : Fin t.length, t.get k = .requestAccepted → (k : Nat) < (j : Nat))) := by
  constructor
  · intro s h
    unfold CleanUp
    rw [h]
  · intro t hv j hj
    obtain ⟨hsend_exit, hrecv_send, hrecv_close, hret_recv, hacc_close⟩ := hv
    obtain ⟨jr, hjr, hjr_lt⟩ := hret_recv j hj
    obtain ⟨js, hjs, hjs_lt⟩ := hrecv_send jr hjr
    obtain ⟨je, hje, hje_lt⟩ := hsend_exit js hjs
    obtain ⟨jc, hjc, hjc_lt⟩ := hrecv_close jr hjr
    refine ⟨⟨je, hje, by omega⟩, ?_⟩
    intro k hk
    have hk_lt := hacc_close k jc hk hjc
    omega

/-- Concrete teardown trace used by the C6 witness. -/
def cleanupTrace : List CEvent :=
  [.listenerClose, .serveExit, .doneSend, .doneRecv, .cleanUpReturn]

/-- Witness for C6: a listener-less responder cleans up trivially, and the
canonical close/exit/signal/receive/return trace satisfies the
conclusion. -/
theorem c6_cleanup_sync_witness :
    CleanUp { iface := "", port := "", boundAddr := none, doneCreated := false, routes := [] } =
      .trivialNil ∧
    ((∃ i : Fin cleanupTrace.length, cleanupTrace.get i = .serveExit ∧ (i : Nat) < 4) ∧
      (∀ k : Fin cleanupTrace.length, cleanupTrace.get k = .requestAccepted → (k : Nat) < 4)) :=
  ⟨c6_cleanup_sync.1 _ rfl,
   c6_cleanup_sync.2 cleanupTrace
     (by unfold ValidCleanupTrace requiresBefore allBefore; decide)
     ⟨4, by decide⟩ (by decide)⟩

/-- Extracts the vault of a successful store operation. -/
def okVault : Res Vault → Vault
  | .ok v => v
  | _ => emptyVault

/-- C1: for every domain and certificate resource with that domain, saving
the resource and then reading the domain against the resulting store state
returns a resource equal to the one saved. -/
theorem c1_save_read_roundtrip (v v1 : Vault) (r : Resource)
    (hsave : SaveResource v r = .ok v1)
    (hre : v.readErr (jsonPath r.domain) = none) :
    ReadResource v1 r.domain = .ok r := by
  unfold SaveResource vaultWrite at hsave
  cases hcl : v.clientErr with
  | some e => simp [hcl] at hsave
  | none =>
    simp only [hcl] at hsave
    cases hw1 : v.writeErr (certsPath r.domain) with
    | some e => simp [hw1] at hsave
    | none =>
      simp only [hw1] at hsave
      cases hw2 : v.writeErr (jsonPath r.domain) with
      | some e => simp [hw2] at hsave
      | none =>
        simp only [hw2] at hsave
        injection hsave with hv1
        subst hv1
        simp [ReadResource, vaultRead, hcl, hre, mapGet, marshalResource, unmarshalResource]

/-- Concrete certificate resource used by the C1 witness. -/
def sampleResource : Resource :=
  { domain := "example.com", certUrl := "https://ca/cert/1",
    certStableUrl := "https://ca/cert/stable/1",
    privateKey := "PEM KEY", certificate := "PEM CERT", issuerCertificate := "PEM ISSUER" }

/-- Witness for C1: saving the sample resource into the empty healthy
store succeeds and reading its domain returns it. -/
theorem c1_save_read_roundtrip_witness :
    SaveResource emptyVault sampleResource =
      .ok (okVault (SaveResource emptyVault sampleResource)) ∧
    ReadResource (okVault (SaveResource emptyVault sampleResource)) "example.com" =
      .ok sampleResource :=
  ⟨rfl, c1_save_read_roundtrip emptyVault _ sampleResource rfl rfl⟩

/-- C3 exhibit: for a never-saved domain, exists is a plain false, and a
read with a healthy backing store dereferences the absent (nil) response
and panics instead of producing the descriptive fatal error; only an
erroring backing read produces the descriptive fatal. -/
theorem c3_never_saved (v : Vault) (domain ext : String)
    (hcl : v.clientErr = none)
    (hst : v.store (jsonPath domain) = none) :
    ExistsFile v domain ext = .ok false ∧
    (v.readErr (jsonPath domain) = none → ReadResource v domain = .panic nilDerefMsg) ∧
    (∀ e, v.readErr (jsonPath domain) = some e →
      ReadResource v domain =
        .fatal ("Error while loading the meta data for domain " ++ domain)) := by
  refine ⟨?_, ?_, ?_⟩
  · cases hre : v.readErr (jsonPath domain) with
    | some e => simp [ExistsFile, vaultRead, hcl, hre]
    | none => simp [ExistsFile, vaultRead, hcl, hre, hst]
  · intro hre
    simp [ReadResource, vaultRead, hcl, hre, hst]
  · intro e hre
    simp [ReadResource, vaultRead, hcl, hre]

/-- Witness for C3: the empty healthy store — exists is false and the read
panics on the missing entry. -/
theorem c3_never_saved_witness :
    ExistsFile emptyVault "example.com" ".crt" = .ok false ∧
    ReadResource emptyVault "example.com" = .panic nilDerefMsg :=
  ⟨(c3_never_saved emptyVault "example.com" ".crt" rfl rfl).1,
   (c3_never_saved emptyVault "example.com" ".crt" rfl rfl).2.1 rfl⟩

/-- C2: loading a stored account whose registration is absent or has empty
status performs exactly one registration-recovery call; a failed recovery
is fatal with no save; a successful recovery is followed by exactly one
save of the account with the recovered registration attached, fatal when
the save fails, and on success the returned account carries the recovered
registration and the recovered record is persisted. -/
theorem c2_load_recovers (v : Vault) (userID : String) (pk : PrivKey) (rec : AccountRecord)
    (hcl : v.clientErr = none)
    (hre : v.readErr (accountPath userID) = none)
    (hst : v.store (accountPath userID) =
      some [("data", .vMap [("data", .vStr (.accountJson rec))])])
    (hreg : regMissingOrEmpty rec.registration = true) :
    (∀ e, LoadAccount v userID pk (.error e) =
      (.fatal ("Could not load account for " ++ userID), [.recoverCall])) ∧
    (∀ (reg : Reg) (e : String), v.writeErr (accountPath rec.email) = some e →
      LoadAccount v userID pk (.ok reg) =
        (.fatal ("Could not save account for " ++ userID),
         [.recoverCall,
          .saveCall { email := rec.email, registration := some reg, key := some pk }])) ∧
    (∀ reg : Reg, v.writeErr (accountPath rec.email) = none →
      LoadAccount v userID pk (.ok reg) =
        (.ok ({ email := rec.email, registration := some reg, key := some pk },
              okVault (Save v { email := rec.email, registration := some reg, key := some pk })),
         [.recoverCall,
          .saveCall { email := rec.email, registration := some reg, key := some pk }]) ∧
      (okVault (Save v { email := rec.email, registration := some reg, key := some pk })).store
          (accountPath rec.email) =
        some [("data", .vMap [("data", .vStr (.accountJson
          { email := rec.email, registration := some reg }))])]) := by
  refine ⟨?_, ?_, ?_⟩
  · intro e
    simp [LoadAccount, vaultRead, hcl, hre, hst, mapGet, unmarshalAccount, hreg]
  · intro reg e hwe
    simp [LoadAccount, vaultRead, hcl, hre, hst, mapGet, unmarshalAccount, hreg,
      Save, vaultWrite, hwe]
  · intro reg hwe
    refine ⟨?_, ?_⟩
    · simp [LoadAccount, vaultRead, hcl, hre, hst, mapGet, unmarshalAccount, hreg,
        Save, vaultWrite, hwe, okVault]
    · simp [Save, vaultWrite, hcl, hwe, okVault, marshalAccount]

/-- Stored record of the C2 witness: an account serialized with no
registration. -/
def sampleStoredRecord : AccountRecord := { email := "hubert@hubert.com", registration := none }

/-- Data map holding the C2 witness record, as Save lays it out. -/
def sampleStoredData : VData :=
  [("data", .vMap [("data", .vStr (.accountJson sampleStoredRecord))])]

/-- Concrete store of the C2 witness: a healthy vault holding the record
with no registration at its user's path. -/
def sampleAccountVault : Vault :=
  { emptyVault with
    store := fun q => if q = accountPath "hubert@hubert.com" then some sampleStoredData else none }

/-- Registration record recovered in the C2 witness. -/
def sampleReg : Reg := { body := { status := "valid" }, uri := "https://ca/reg/1" }

/-- The account the C2 witness expects back: the stored record with the
recovered registration and the supplied key attached. -/
def sampleRecoveredAccount : Account :=
  { email := "hubert@hubert.com", registration := some sampleReg, key := some (.rsaKey 7) }

/-- Witness for C2: loading the registration-less stored account with a
successful recovery returns the recovered account after exactly one
recovery call and one save. -/
theorem c2_load_recovers_witness :
    LoadAccount sampleAccountVault "hubert@hubert.com" (.rsaKey 7) (.ok sampleReg) =
      (.ok (sampleRecoveredAccount, okVault (Save sampleAccountVault sampleRecoveredAccount)),
       [.recoverCall, .saveCall sampleRecoveredAccount]) :=
  ((c2_load_recovers sampleAccountVault "hubert@hubert.com" (.rsaKey 7) sampleStoredRecord
      rfl rfl (by simp [sampleAccountVault, emptyVault, sampleStoredData]) rfl).2.2
    sampleReg rfl).1

/-- Data map persisted for a generated key. -/
def storedKeyData (kt : KeyType) (entropy : Nat) : VData :=
  [("data", .vMap [("data", .vStr (pemEncodeToMemory (PEMBlock (GeneratePrivateKey kt entropy))))])]

/-- The vault after GetPrivateKey generated and persisted a fresh key: the
PEM encoding of the generated key sits at the user's key path. -/
def keyVaultAfter (v : Vault) (userID : String) (kt : KeyType) (entropy : Nat) : Vault :=
  { v with
    store := fun q =>
      if q = privateKeyPath userID then some (storedKeyData kt entropy) else v.store q }

/-- C4: with no prior stored key, a first GetPrivateKey call generates a
key, persists its PEM encoding and returns it only on persistence success
(a failed write is fatal); a second call against the resulting store
decodes the stored PEM and returns the same key material, whatever key
type the second call requests. -/
theorem c4_idempotent_key (v : Vault) (userID : String) (kt : KeyType) (entropy : Nat)
    (hcl : v.clientErr = none)
    (hre : v.readErr (privateKeyPath userID) = none)
    (hst : v.store (privateKeyPath userID) = none) :
    (∀ e, v.writeErr (privateKeyPath userID) = some e →
      GetPrivateKey v userID kt entropy =
        .fatal ("Could not write private account key for account " ++ userID)) ∧
    (v.writeErr (privateKeyPath userID) = none →
      GetPrivateKey v userID kt entropy =
        .ok (GeneratePrivateKey kt entropy, keyVaultAfter v userID kt entropy) ∧
      ∀ (kt' : KeyType) (entropy' : Nat),
        GetPrivateKey (keyVaultAfter v userID kt entropy) userID kt' entropy' =
          .ok (GeneratePrivateKey kt entropy, keyVaultAfter v userID kt entropy)) := by
  constructor
  · intro e hwe
    simp [GetPrivateKey, vaultRead, vaultWrite, hcl, hre, hst, hwe]
  · intro hwe
    constructor
    · simp [GetPrivateKey, vaultRead, vaultWrite, hcl, hre, hst, hwe, keyVaultAfter,
        storedKeyData]
    · intro kt' entropy'
      cases kt <;>
        simp [GetPrivateKey, vaultRead, keyVaultAfter, storedKeyData, hcl, hre, mapGet,
          loadPrivateKey, pemDecode, pemEncodeToMemory, PEMBlock, GeneratePrivateKey,
          parsePKCS1PrivateKey, parseECPrivateKey]

/-- Witness for C4: the empty healthy store — the first call generates and
persists an RSA key, and a second call (even requesting EC256) returns the
same key material. -/
theorem c4_idempotent_key_witness :
    GetPrivateKey emptyVault "hubert@hubert.com" .RSA2048 42 =
      .ok (GeneratePrivateKey .RSA2048 42, keyVaultAfter emptyVault "hubert@hubert.com" .RSA2048 42) ∧
    GetPrivateKey (keyVaultAfter emptyVault "hubert@hubert.com" .RSA2048 42)
        "hubert@hubert.com" .EC256 7 =
      .ok (GeneratePrivateKey .RSA2048 42, keyVaultAfter emptyVault "hubert@hubert.com" .RSA2048 42) :=
  ⟨((c4_idempotent_key emptyVault "hubert@hubert.com" .RSA2048 42 rfl rfl rfl).2 rfl).1,
   ((c4_idempotent_key emptyVault "hubert@hubert.com" .RSA2048 42 rfl rfl rfl).2 rfl).2 .EC256 7⟩

/-- Distinct user identifiers give distinct account paths. -/
theorem accountPath_injective (x y : String) (h : accountPath x = accountPath y) : x = y := by
  unfold accountPath at h
  have hdata := congrArg String.data h
  rw [String.data_append, String.data_append] at hdata
  have hxy := List.append_cancel_left hdata
  cases x
  cases y
  exact congrArg String.mk hxy

/-- C10: Save writes under the path keyed by the account's own email while
LoadAccount reads the path keyed by the storage's user identifier; when the
email equals the user identifier, save then load round-trips (the loaded
account is the saved one with the key attached, with no recovery and no
re-save); when the email differs, a save leaves the record LoadAccount
reads unchanged. -/
theorem c10_save_load_keying :
    (∀ (v : Vault) (a : Account) (userID : String) (pk : PrivKey)
        (recov : Except String Reg) (w : Vault),
      v.clientErr = none →
      v.readErr (accountPath userID) = none →
      a.email = userID →
      regMissingOrEmpty a.registration = false →
      Save v a = .ok w →
      LoadAccount w userID pk recov = (.ok ({ a with key := some pk }, w), [])) ∧
    (∀ (v : Vault) (a : Account) (userID : String) (w : Vault),
      a.email ≠ userID →
      Save v a = .ok w →
      w.store (accountPath userID) = v.store (accountPath userID)) := by
  constructor
  · intro v a userID pk recov w hcl hre hmail hreg hsave
    unfold Save vaultWrite at hsave
    rw [hcl] at hsave
    cases hwe : v.writeErr (accountPath a.email) with
    | some e => simp [hwe] at hsave
    | none =>
      simp only [hwe] at hsave
      injection hsave with hw
      subst hw
      subst hmail
      simp [LoadAccount, vaultRead, hcl, hre, mapGet, unmarshalAccount, marshalAccount, hreg]
  · intro v a userID w hmail hsave
    unfold Save vaultWrite at hsave
    cases hcl : v.clientErr with
    | some e => rw [hcl] at hsave; simp at hsave
    | none =>
      rw [hcl] at hsave
      cases hwe : v.writeErr (accountPath a.email) with
      | some e => simp [hwe] at hsave
      | none =>
        simp only [hwe] at hsave
        injection hsave with hw
        subst hw
        have hne : accountPath userID ≠ accountPath a.email :=
          fun h => hmail (accountPath_injective a.email userID h.symm)
        simp [hne]

/-- Saved account of the C10 witness: usable registration, email equal to
the storage's user identifier. -/
def sampleUsableAccount : Account :=
  { email := "hubert@hubert.com", registration := some sampleReg, key := none }

/-- Witness for C10: saving the sample account round-trips through
LoadAccount under its own email, while saving a same-shaped account under
a different email leaves the record at the user's path untouched. -/
theorem c10_save_load_keying_witness :
    LoadAccount (okVault (Save emptyVault sampleUsableAccount)) "hubert@hubert.com"
        (.ecKey 3) (.error "unused") =
      (.ok ({ sampleUsableAccount with key := some (.ecKey 3) },
            okVault (Save emptyVault sampleUsableAccount)), []) ∧
    (okVault (Save emptyVault { sampleUsableAccount with email := "alice@example.com" })).store
        (accountPath "hubert@hubert.com") =
      emptyVault.store (accountPath "hubert@hubert.com") :=
  ⟨c10_save_load_keying.1 emptyVault sampleUsableAccount "hubert@hubert.com" (.ecKey 3)
      (.error "unused") _ rfl rfl rfl rfl rfl,
   c10_save_load_keying.2 emptyVault { sampleUsableAccount with email := "alice@example.com" }
      "hubert@hubert.com" _ (by decide) rfl⟩

end Lego
